import Mathlib

/-!
Verification of the BUUCTF agent core: the Session Memory Manager
(src/agent/memory.py), the Step Orchestration Loop and Response
Normalizer (src/agent/solve_agent.py), and the JSON repair helper
(src/agent/utils.py), shallowly embedded in Lean.

External LLM calls are modelled as oracle parameters: each call site takes
the outcome of the call (raised / returned text together with the result of
JSON-parsing that text) as an explicit argument, and the surrounding control
flow is translated statement by statement from the Python source.
-/

namespace BUU

/-- JSON values, the result of a successful json.loads.  Objects are kept as
insertion-ordered association lists with distinct keys (the shape Python
dicts produced by json.loads have). -/
inductive JValue where
  | null : JValue
  | jbool : Bool → JValue
  | jnum : Int → JValue
  | jstr : String → JValue
  | jarr : List JValue → JValue
  | jobj : List (String × JValue) → JValue
deriving Repr, BEq

/-- Python runtime errors that the embedded code can raise. -/
inductive PyErr where
  | keyError : String → PyErr
  | attributeError : String → PyErr
  | indexError : PyErr
  | typeError : String → PyErr
  | unboundLocal : String → PyErr
  | raised : String → PyErr
deriving Repr, BEq, DecidableEq

/-- Lookup in an insertion-ordered dict (first match; keys are distinct). -/
def dictGet (d : List (String × JValue)) (k : String) : Option JValue :=
  (d.find? (fun p => p.1 == k)).map (fun p => p.2)

/-- Python d.get(k, dflt) on a dict. -/
def dictGetD (d : List (String × JValue)) (k : String) (dflt : JValue) : JValue :=
  (dictGet d k).getD dflt

/-- Python d[k] = v: overwrite in place if the key exists, else append. -/
def dictSet (d : List (String × JValue)) (k : String) (v : JValue) :
    List (String × JValue) :=
  if d.any (fun p => p.1 == k) then
    d.map (fun p => if p.1 == k then (k, v) else p)
  else d ++ [(k, v)]

/-- Membership of a key in a dict, as Python `k in d`. -/
def dictHas (d : List (String × JValue)) (k : String) : Bool :=
  d.any (fun p => p.1 == k)

/-- String-valued dict used for key facts (values are always str in the
source).  Same Python dict semantics. -/
def sdictSet (d : List (String × String)) (k v : String) :
    List (String × String) :=
  if d.any (fun p => p.1 == k) then
    d.map (fun p => if p.1 == k then (k, v) else p)
  else d ++ [(k, v)]

/-- Python truthiness of a JSON value. -/
def pyTruthy : JValue → Bool
  | .null => false
  | .jbool b => b
  | .jnum n => n != 0
  | .jstr s => s != ""
  | .jarr xs => !xs.isEmpty
  | .jobj fs => !fs.isEmpty

/-- A single quote character, used when rendering f-strings from the source
that contain quoted interpolations. -/
def squote : String := String.singleton (Char.ofNat 39)

mutual

/-- Python str() of a JSON value, as used inside f-strings. -/
def pyStr : JValue → String
  | .null => "None"
  | .jbool b => if b then "True" else "False"
  | .jnum n => toString n
  | .jstr s => s
  | .jarr xs => "[" ++ pyReprList xs ++ "]"
  | .jobj fs => "\x7b" ++ pyReprFields fs ++ "\x7d"

/-- Python repr() of a JSON value (used for elements inside containers). -/
def pyRepr : JValue → String
  | .null => "None"
  | .jbool b => if b then "True" else "False"
  | .jnum n => toString n
  | .jstr s => squote ++ s ++ squote
  | .jarr xs => "[" ++ pyReprList xs ++ "]"
  | .jobj fs => "\x7b" ++ pyReprFields fs ++ "\x7d"

def pyReprList : List JValue → String
  | [] => ""
  | [x] => pyRepr x
  | x :: xs => pyRepr x ++ ", " ++ pyReprList xs

def pyReprFields : List (String × JValue) → String
  | [] => ""
  | [(k, v)] => squote ++ k ++ squote ++ ": " ++ pyRepr v
  | (k, v) :: fs => squote ++ k ++ squote ++ ": " ++ pyRepr v ++ ", " ++ pyReprFields fs

end

/-- Python hashability of a JSON value (lists and dicts are unhashable). -/
def pyHashable : JValue → Bool
  | .jarr _ => false
  | .jobj _ => false
  | _ => true

/-- Python list(x)[-n:] / x[-n:] for n ≥ 1 (for n larger than the length it
is the whole list). -/
def takeLastN (xs : List α) (n : Nat) : List α :=
  xs.drop (xs.length - n)

/-- Python len() of a JSON value. -/
def pyLen : JValue → Except PyErr Nat
  | .jarr xs => .ok xs.length
  | .jstr s => .ok s.length
  | .jobj fs => .ok fs.length
  | _ => .error (.typeError "object has no len()")

/-- Python `for x in v` iteration order: lists yield elements, strings yield
single-character strings, dicts yield keys; other values raise TypeError. -/
def pyIterate : JValue → Except PyErr (List JValue)
  | .jarr xs => .ok xs
  | .jstr s => .ok (s.toList.map (fun ch => .jstr (String.singleton ch)))
  | .jobj fs => .ok (fs.map (fun p => JValue.jstr p.1))
  | _ => .error (.typeError "object is not iterable")

/-- Rendering of str(e) for an exception, as interpolated by the source
f-strings. -/
def pyErrMsg : PyErr → String
  | .keyError k => squote ++ k ++ squote
  | .attributeError msg => msg
  | .indexError => "list index out of range"
  | .typeError msg => msg
  | .unboundLocal n => "cannot access local variable " ++ squote ++ n ++ squote
  | .raised msg => msg

/-- A step record as stored by SolveAgent.solve (src/agent/solve_agent.py,
lines 188-196): the step number, the purpose and content taken from the
parsed arguments (arbitrary JSON values), the output string, and the
analysis dictionary returned by the Analyzer. -/
structure StepRecord where
  step : Int
  purpose : JValue
  content : JValue
  output : String
  analysis : List (String × JValue)
deriving Repr, BEq

/-- The Memory state (src/agent/memory.py, lines 10-27).  key_facts values
are always strings in the source; failed_attempts is a Python dict whose
keys are the (hashable) step contents and compaction-reported attempts. -/
structure Memory where
  max_steps : Nat
  compression_threshold : Nat
  history : List StepRecord
  compressed_memory : List (List (String × JValue))
  key_facts : List (String × String)
  failed_attempts : List (JValue × Nat)
deriving Repr, BEq

/-- A fresh Memory (src/agent/memory.py __init__; SolveAgent passes
max_steps 10 and compression_threshold 5 by default, Memory itself
defaults to 15 and 7). -/
def Memory.init (maxSteps threshold : Nat) : Memory :=
  { max_steps := maxSteps, compression_threshold := threshold,
    history := [], compressed_memory := [], key_facts := [],
    failed_attempts := [] }

/-- self.failed_attempts[k] = self.failed_attempts.get(k, 0) + 1. -/
def bumpCounter (c : List (JValue × Nat)) (k : JValue) : List (JValue × Nat) :=
  if c.any (fun p => p.1 == k) then
    c.map (fun p => if p.1 == k then (p.1, p.2 + 1) else p)
  else c ++ [(k, 1)]

/-- Increment the counter for each listed attempt in order, stopping with a
TypeError at the first unhashable key (the updates made before the raise
persist, as Python state mutation does). -/
def bumpAll (c : List (JValue × Nat)) : List JValue → List (JValue × Nat) × Option PyErr
  | [] => (c, none)
  | x :: xs =>
    if pyHashable x then bumpAll (bumpCounter c x) xs
    else (c, some (.typeError "unhashable type"))

/-- needle begins the given character list. -/
def charsLeadWith : List Char → List Char → Bool
  | [], _ => true
  | _ :: _, [] => false
  | a :: as, b :: bs => a == b && charsLeadWith as bs

/-- needle occurs somewhere in the character list (Python substring `in`). -/
def charsHaveSub (needle : List Char) : List Char → Bool
  | [] => charsLeadWith needle []
  | c :: rest => charsLeadWith needle (c :: rest) || charsHaveSub needle rest

/-- Python `needle in hay` on strings. -/
def strHasSub (hay needle : String) : Bool :=
  charsHaveSub needle.data hay.data

/-- Python str.lower(). -/
def lowerStr (s : String) : String :=
  String.mk (s.data.map Char.toLower)

/-- Case-insensitive containment test for the markers ("key finding",
"key findings") from _extract_key_facts (src/agent/memory.py, lines 59-61). -/
def containsKeyFinding (s : String) : Bool :=
  let low := lowerStr s
  strHasSub low "key finding" || strHasSub low "key findings"

/-- Memory._extract_key_facts (src/agent/memory.py, lines 46-62).  System
records always carry content, output and an analysis dict, so both guards
on key presence are taken.  The content-derived finding key uses the
analysis text itself in place of the Python hash value (an injective stand-in
with the same deduplication behaviour). -/
def extractKeyFacts (m : Memory) (s : StepRecord) : Memory :=
  let outputSummary := s.output.take 256 ++ (if s.output.length > 256 then "..." else "")
  let commandFact := "Command: " ++ pyStr s.content ++ ", Result: " ++ outputSummary
  let m1 := { m with key_facts := sdictSet m.key_facts "command" commandFact }
  match dictGet s.analysis "analysis" with
  | some (.jstr a) =>
      if containsKeyFinding a then
        { m1 with key_facts := sdictSet m1.key_facts ("finding:" ++ a) a }
      else m1
  | _ => m1

/-- The failed-attempt tracking in add_step (src/agent/memory.py, lines
37-40).  When success is present and falsy, the content becomes a counter
key; an unhashable content (a JSON list or object) raises a TypeError at
that point, leaving the state as mutated so far. -/
def trackFailure (m : Memory) (s : StepRecord) : Memory × Option PyErr :=
  match dictGet s.analysis "success" with
  | some v =>
      if pyTruthy v then (m, none)
      else if pyHashable s.content then
        ({ m with failed_attempts := bumpCounter m.failed_attempts s.content }, none)
      else (m, some (.typeError "unhashable type"))
  | none => (m, none)

/-- Outcome of the single external summarisation call made by
compress_memory, together with the result of json.loads on the stripped
reply text.  raw is the stripped reply. -/
inductive CompressOutcome where
  | callRaised : String → CompressOutcome
  | callKeyError : CompressOutcome
  | replyUnparseable : String → CompressOutcome
  | replyParsed : String → JValue → CompressOutcome

/-- The degraded block stored by the generic except branch
(src/agent/memory.py, lines 140-144). -/
def errorBlock (msg : String) (n : Nat) : List (String × JValue) :=
  [("error", .jstr ("Compression failed: " ++ msg)), ("source_steps", .jnum n)]

/-- The degraded block stored by the JSONDecodeError/KeyError branch
(src/agent/memory.py, lines 129-139). -/
def fallbackBlock (raw : String) (n : Nat) : List (String × JValue) :=
  [("fallback_summary", .jstr raw), ("source_steps", .jnum n)]

/-- The try-block of compress_memory after json.loads succeeded
(src/agent/memory.py, lines 113-144): fold failed_attempts into the
counters, stamp source_steps, append the block, then the success print
reads compressed_data["key_findings"] and takes its len - both of which
can raise after the append, landing in an except branch that appends a
second, degraded block.  Returns the blocks appended and the new counters. -/
def compressTryBody (m : Memory) (raw : String) (v : JValue) (n : Nat) :
    List (List (String × JValue)) × List (JValue × Nat) :=
  match v with
  | .jobj fields =>
      let attempts := dictGetD fields "failed_attempts" (.jarr [])
      match pyIterate attempts with
      | .error e => ([errorBlock (pyErrMsg e) n], m.failed_attempts)
      | .ok xs =>
          match bumpAll m.failed_attempts xs with
          | (c, some e) => ([errorBlock (pyErrMsg e) n], c)
          | (c, none) =>
              let block := dictSet fields "source_steps" (.jnum n)
              match dictGet block "key_findings" with
              | none => ([block, fallbackBlock raw n], c)
              | some kf =>
                  match pyLen kf with
                  | .error e => ([block, errorBlock (pyErrMsg e) n], c)
                  | .ok _ => ([block], c)
  | _ =>
      ([errorBlock ("object has no attribute " ++ squote ++ "get" ++ squote) n],
       m.failed_attempts)

/-- The blocks appended and the counters left by the try/except of
compress_memory, by call outcome (src/agent/memory.py, lines 102-144). -/
def compressBlocks (m : Memory) (oc : CompressOutcome) (n : Nat) :
    List (List (String × JValue)) × List (JValue × Nat) :=
  match oc with
  | .callRaised msg => ([errorBlock msg n], m.failed_attempts)
  | .callKeyError => ([fallbackBlock "Compression failed" n], m.failed_attempts)
  | .replyUnparseable raw => ([fallbackBlock raw n], m.failed_attempts)
  | .replyParsed raw v => compressTryBody m raw v n

/-- Memory.compress_memory (src/agent/memory.py, lines 64-148).  Empty
history returns immediately; otherwise exactly the blocks produced by the
outcome branch are appended and the history is truncated to its last
min(4, len) entries, on every branch. -/
def compressMemory (m : Memory) (oc : CompressOutcome) : Memory :=
  if m.history.isEmpty then m
  else
    let n := m.history.length
    let bc := compressBlocks m oc n
    { m with
      compressed_memory := m.compressed_memory ++ bc.1,
      failed_attempts := bc.2,
      history := takeLastN m.history (min 4 n) }

/-- Memory.add_step (src/agent/memory.py, lines 29-44): append, extract key
facts, track failures (which can raise, leaving the step appended but the
compaction check skipped), then compact when the threshold is reached. -/
def addStep (m : Memory) (s : StepRecord) (oc : CompressOutcome) :
    Memory × Option PyErr :=
  match trackFailure (extractKeyFacts { m with history := m.history ++ [s] } s) s with
  | (m3, some e) => (m3, some e)
  | (m3, none) =>
      if m3.history.length ≥ m3.compression_threshold then
        (compressMemory m3 oc, none)
      else (m3, none)

/-- The slice of history embedded in the compression prompt
(src/agent/memory.py, line 92): self.history[-self.compression_threshold:].
Python -0 is 0, so a zero threshold slices the whole list. -/
def promptedSteps (m : Memory) : List StepRecord :=
  if m.compression_threshold == 0 then m.history
  else takeLastN m.history m.compression_threshold

/-- The fixed instruction header of the compression prompt
(src/agent/memory.py, lines 71-84). -/
def promptHeader : String :=
  "You are a CTF solving assistant. Compress the solving history by completing these tasks:\n" ++
  "1. Identify key technical findings and discoveries.\n" ++
  "2. Record solutions that were attempted but failed.\n" ++
  "3. Summarise the current progress and suggest next steps.\n" ++
  "4. Return a JSON object with the structure:\n" ++
  "\x7b\n" ++
  "  \"key_findings\": [\"Finding 1\", \"Finding 2\"],\n" ++
  "  \"failed_attempts\": [\"Command 1\", \"Command 2\"],\n" ++
  "  \"current_status\": \"Status description\",\n" ++
  "  \"next_steps\": [\"Suggestion 1\", \"Suggestion 2\"]\n" ++
  "\x7d\n\nHistory:\n"

/-- The key-facts section of the compression prompt (src/agent/memory.py,
lines 87-89): only the latest 5 fact values. -/
def promptKeyFacts (facts : List (String × String)) : String :=
  "Key facts summary:\n" ++
  String.join ((takeLastN facts 5).map (fun p => "- " ++ p.2 ++ "\n"))

/-- The per-step section of the compression prompt (src/agent/memory.py,
lines 92-100).  System records always carry an analysis dict, so the
analysis line is always emitted. -/
def promptStepsText : Nat → List StepRecord → String
  | _, [] => ""
  | i, s :: rest =>
      "\nStep " ++ toString (i + 1) ++ ":\n" ++
      "- Purpose: " ++ pyStr s.purpose ++ "\n" ++
      "- Command: " ++ pyStr s.content ++ "\n" ++
      "- Analysis: " ++ pyStr (dictGetD s.analysis "analysis" (.jstr "No analysis")) ++ "\n" ++
      promptStepsText (i + 1) rest

/-- The full compression prompt built by compress_memory
(src/agent/memory.py, lines 71-100). -/
def compressionPrompt (m : Memory) : String :=
  promptHeader ++ promptKeyFacts m.key_facts ++ promptStepsText 0 (promptedSteps m)

/-- Python v[:n] on a JSON value. -/
def pySliceTo (v : JValue) (n : Nat) : Except PyErr JValue :=
  match v with
  | .jarr xs => .ok (.jarr (xs.take n))
  | .jstr s => .ok (.jstr (s.take n))
  | _ => .error (.typeError "object is not subscriptable")

/-- Elements of a joined sequence must all be str. -/
def allStrings : List JValue → Except PyErr (List String)
  | [] => .ok []
  | .jstr s :: rest => do
      let tail ← allStrings rest
      .ok (s :: tail)
  | _ :: _ => .error (.typeError "sequence item: expected str instance")

/-- Python sep.join(v) with sep = ", ". -/
def pyJoinComma (v : JValue) : Except PyErr String :=
  match v with
  | .jarr xs => do
      let ss ← allStrings xs
      .ok (String.intercalate ", " ss)
  | .jstr s => .ok (String.intercalate ", " (s.toList.map String.singleton))
  | .jobj fs => .ok (String.intercalate ", " (fs.map (fun p => p.1)))
  | _ => .error (.typeError "can only join an iterable")

/-- Python v[0]. -/
def pyIndexZero (v : JValue) : Except PyErr JValue :=
  match v with
  | .jarr [] => .error .indexError
  | .jarr (x :: _) => .ok x
  | .jstr s =>
      if s.isEmpty then .error .indexError
      else .ok (.jstr (String.singleton s.front))
  | .jobj _ => .error (.keyError "0")
  | _ => .error (.typeError "object is not subscriptable")

/-- The status and key-findings lines of one block rendering
(src/agent/memory.py, lines 167-172), emitted only when the block has a
key_findings entry. -/
def renderBlockFindings (mem : List (String × JValue)) : Except PyErr String :=
  match dictGet mem "key_findings" with
  | none => .ok ""
  | some kf => do
      let sliced ← pySliceTo kf 3
      let joined ← pyJoinComma sliced
      let n ← pyLen kf
      let overflow := if n > 3 then " and " ++ toString (n - 3) ++ " more" else ""
      .ok ("- Status: " ++ pyStr (dictGetD mem "current_status" (.jstr "unknown")) ++ "\n" ++
           "- Key findings: " ++ joined ++ overflow ++ "\n")

/-- The failed-attempts lines of one block rendering (src/agent/memory.py,
lines 174-178). -/
def renderBlockFailed (mem : List (String × JValue)) : Except PyErr String :=
  match dictGet mem "failed_attempts" with
  | none => .ok ""
  | some fa => do
      let sliced ← pySliceTo fa 3
      let joined ← pyJoinComma sliced
      let n ← pyLen fa
      let overflow := if n > 3 then " and " ++ toString (n - 3) ++ " more" else ""
      .ok ("- Failed attempts: " ++ joined ++ overflow ++ "\n")

/-- The suggested-next-step line of one block rendering
(src/agent/memory.py, lines 180-181): indexes next_steps[0], which raises
IndexError when the stored list is empty. -/
def renderBlockNext (mem : List (String × JValue)) : Except PyErr String :=
  match dictGet mem "next_steps" with
  | none => .ok ""
  | some ns => do
      let x ← pyIndexZero ns
      .ok ("- Suggested next step: " ++ pyStr x ++ "\n")

/-- The provenance line of one block rendering (src/agent/memory.py,
line 183): mem["source_steps"] raises KeyError when absent. -/
def renderBlockSource (mem : List (String × JValue)) : Except PyErr String :=
  match dictGet mem "source_steps" with
  | none => .error (.keyError "source_steps")
  | some v => .ok ("- Source: based on " ++ pyStr v ++ " historical steps\n\n")

/-- One compressed block rendered in get_summary (src/agent/memory.py,
lines 165-183), labelled with its displayed number. -/
def renderBlock (num : Nat) (mem : List (String × JValue)) : Except PyErr String := do
  let p1 ← renderBlockFindings mem
  let p2 ← renderBlockFailed mem
  let p3 ← renderBlockNext mem
  let p4 ← renderBlockSource mem
  .ok ("Block #" ++ toString num ++ ":\n" ++ p1 ++ p2 ++ p3 ++ p4)

/-- The enumerate loop over the last three blocks (src/agent/memory.py,
line 164): block i of the slice is displayed as number total - i, where
total is the length of the whole compressed sequence. -/
def renderBlocksFrom (total : Nat) : Nat → List (List (String × JValue)) → Except PyErr String
  | _, [] => .ok ""
  | i, b :: rest => do
      let s ← renderBlock (total - i) b
      let r ← renderBlocksFrom total (i + 1) rest
      .ok (s ++ r)

/-- The compressed-blocks section of get_summary (src/agent/memory.py,
lines 162-183). -/
def blocksSection (m : Memory) : Except PyErr String :=
  if m.compressed_memory.isEmpty then .ok ""
  else do
    let body ← renderBlocksFrom m.compressed_memory.length 0 (takeLastN m.compressed_memory 3)
    .ok ("Compressed memory blocks:\n" ++ body)

/-- The key-facts section of get_summary (src/agent/memory.py, lines
155-159): the latest 10 fact values. -/
def factsSection (includeKeyFacts : Bool) (m : Memory) : String :=
  if includeKeyFacts && !m.key_facts.isEmpty then
    "Key facts:\n" ++
    String.join ((takeLastN m.key_facts 10).map (fun p => "- " ++ p.2 ++ "\n")) ++ "\n"
  else ""

/-- One active-history record rendered in get_summary (src/agent/memory.py,
lines 190-211).  System records always carry content, output and an analysis
dict; the failure-count lookup hashes the content, raising TypeError on an
unhashable value. -/
def renderStep (counters : List (JValue × Nat)) (num : Nat) (s : StepRecord) :
    Except PyErr String := do
  let outputPart := "- Output: " ++ s.output.take 512 ++
      (if s.output.length > 512 then "..." else "") ++ "\n"
  let analysisPart := "- Analysis: " ++
      pyStr (dictGetD s.analysis "analysis" (.jstr "No analysis")) ++ "\n"
  let failPart ←
    if pyHashable s.content then
      match (counters.find? (fun p => p.1 == s.content)) with
      | some p => pure ("- Historical failure count: " ++ toString p.2 ++ "\n")
      | none => pure ""
    else throw (.typeError "unhashable type")
  .ok ("Step " ++ toString num ++ ":\n" ++
       "- Purpose: " ++ pyStr s.purpose ++ "\n" ++
       "- Command: " ++ pyStr s.content ++ "\n" ++
       outputPart ++ analysisPart ++ failPart ++ "\n")

/-- The enumerate loop over active history (src/agent/memory.py, line 188):
record i is displayed as number total - i. -/
def renderStepsFrom (counters : List (JValue × Nat)) (total : Nat) :
    Nat → List StepRecord → Except PyErr String
  | _, [] => .ok ""
  | i, s :: rest => do
      let one ← renderStep counters (total - i) s
      let r ← renderStepsFrom counters total (i + 1) rest
      .ok (one ++ r)

/-- The recent-detailed-steps section of get_summary (src/agent/memory.py,
lines 186-211). -/
def stepsSection (m : Memory) : Except PyErr String :=
  if m.history.isEmpty then .ok ""
  else do
    let body ← renderStepsFrom m.failed_attempts m.history.length 0 m.history
    .ok ("Recent detailed steps:\n" ++ body)

/-- Memory.get_summary (src/agent/memory.py, lines 150-212). -/
def getSummary (m : Memory) (includeKeyFacts : Bool) : Except PyErr String := do
  let s1 := factsSection includeKeyFacts m
  let s2 ← blocksSection m
  let s3 ← stepsSection m
  let total := s1 ++ s2 ++ s3
  .ok (if total = "" then "No history" else total)

/-- fix_json_with_llm (src/agent/utils.py, lines 25-37): the while-True
loop submits the malformed text to the Judgment Client, re-parses each
reply, and returns the first reply that json.loads accepts.  parseJson is
the JSON parse oracle and replies the successive client replies; none
models the loop still running because no reply parsed yet. -/
def fix_json_with_llm (parseJson : String → Option JValue) :
    List String → Option String
  | [] => none
  | r :: rest =>
      if (parseJson r).isSome then some r else fix_json_with_llm parseJson rest

/-- Python v.get(k, dflt) where v may not be a dict. -/
def pyGetD (v : JValue) (k : String) (dflt : JValue) : Except PyErr JValue :=
  match v with
  | .jobj fs => .ok (dictGetD fs k dflt)
  | _ => .error (.attributeError
      ("object has no attribute " ++ squote ++ "get" ++ squote))

/-- Python v.setdefault(k, dflt): only dicts have setdefault; the repaired
JSON text assigned to args in parse_tool_response is a str, which raises
AttributeError here. -/
def pySetdefault (v : JValue) (k : String) (dflt : JValue) :
    Except PyErr (List (String × JValue)) :=
  match v with
  | .jobj fs => .ok (if dictHas fs k then fs else fs ++ [(k, dflt)])
  | _ => .error (.attributeError
      ("object has no attribute " ++ squote ++ "setdefault" ++ squote))

/-- Python `k in v` for a string key: dicts test key membership, lists test
element equality, strings test substring containment. -/
def pyContainsStr (v : JValue) (k : String) : Except PyErr Bool :=
  match v with
  | .jobj fs => .ok (dictHas fs k)
  | .jarr xs => .ok (xs.any (fun x => x == .jstr k))
  | .jstr s => .ok (strHasSub s k)
  | _ => .error (.typeError "argument is not a container")

/-- Python v[k] for a string key. -/
def pyGetItemStr (v : JValue) (k : String) : Except PyErr JValue :=
  match v with
  | .jobj fs =>
      match dictGet fs k with
      | some x => .ok x
      | none => .error (.keyError k)
  | .jarr _ => .error (.typeError "list indices must be integers")
  | .jstr _ => .error (.typeError "string indices must be integers")
  | _ => .error (.typeError "object is not subscriptable")

/-- The canonical action produced by the Response Normalizer: the
dictionary literal returned at src/agent/solve_agent.py line 331. -/
structure NextStep where
  tool_name : JValue
  arguments : List (String × JValue)
deriving Repr, BEq

/-- A raw model reply as seen by parse_tool_response, with the outcomes of
the external operations applied to it.  toolCall carries the json.loads
result of the structured call arguments (none = JSONDecodeError, in which
case fix_json_with_llm returned repairedText, a str).  text carries the
json.loads result of the stripped free-text content (none = JSONDecodeError,
in which case the repaired text re-parses to repairedParsed, as the repair
contract guarantees).  textRaisedOther models json.loads raising an
exception other than JSONDecodeError, the path that returns the empty dict. -/
inductive RawReply where
  | toolCall : String → Option JValue → String → RawReply
  | text : Option JValue → JValue → RawReply
  | textRaisedOther : RawReply

/-- SolveAgent.parse_tool_response (src/agent/solve_agent.py, lines
291-331).  The result none is the empty dict returned at line 320; the
fall-through to the logger lines with func_name unassigned raises
UnboundLocalError (data parsed but carried no truthy tool_calls entry). -/
def parse_tool_response : RawReply → Except PyErr (Option NextStep)
  | .toolCall name argsParsed repairedText => do
      let args0 : JValue :=
        match argsParsed with
        | some v => v
        | none => .jstr repairedText
      let a1 ← pySetdefault args0 "purpose" (.jstr "Execute action")
      let a2 ← pySetdefault (.jobj a1) "content" (.jstr "")
      pure (some { tool_name := .jstr name, arguments := a2 })
  | .text parsed repairedParsed => do
      let data : JValue :=
        match parsed with
        | some v => v
        | none => repairedParsed
      let has ← pyContainsStr data "tool_calls"
      if has then do
        let tc ← pyGetItemStr data "tool_calls"
        if pyTruthy tc then do
          let tc0 ← pyIndexZero tc
          let nameV ← pyGetD tc0 "name" (.jstr "tool_parse_failed")
          let argsV ← pyGetD tc0 "arguments" (.jobj [])
          let a1 ← pySetdefault argsV "purpose" (.jstr "Execute action")
          let a2 ← pySetdefault (.jobj a1) "content" (.jstr "")
          pure (some { tool_name := nameV, arguments := a2 })
        else throw (.unboundLocal "func_name")
      else throw (.unboundLocal "func_name")
  | .textRaisedOther => pure none

/-- One generation attempt as observed by the retry loop in solve: the
parsed dictionary, the empty dict, or a raised exception. -/
inductive GenResult where
  | okStep : NextStep → GenResult
  | void : GenResult
  | raisedErr : PyErr → GenResult

/-- Result of the generation phase: the action the loop leaves with (none
is the empty dict) and the number of 10-second backoff sleeps performed,
or a propagated exception. -/
inductive GenPhase where
  | proceed : Option NextStep → Nat → GenPhase
  | fatal : PyErr → GenPhase
deriving Repr, BEq

/-- The generation retry loop of SolveAgent.solve (src/agent/solve_agent.py,
lines 130-136).  next_step starts as None; after the first call it holds a
dict (truthy: break) or the empty dict (falsy: one sleep, then the while
condition next_step is None is False and the loop exits with the empty
dict); an exception propagates.  The remaining outcomes are never consumed. -/
def genLoop : List GenResult → GenPhase
  | [] => .fatal (.raised "no generation outcome supplied")
  | g :: _ =>
      match g with
      | .okStep s => .proceed (some s) 0
      | .void => .proceed none 1
      | .raisedErr e => .fatal e

/-- Behaviour of a registered tool on this call: execute either raises or
returns the (stdout, stderr) pair. -/
inductive ToolBehavior where
  | raisesExec : String → ToolBehavior
  | returns : String → String → ToolBehavior

/-- The EXECUTING phase of SolveAgent.solve (src/agent/solve_agent.py,
lines 154-166): dispatch on the tool name, catch execution errors into the
output string, fall back to a not-found message for unknown names.  The
membership test tool_name in self.tools hashes the name, so an unhashable
name raises.  The empty-dict action yields tool_name None, rendered into
the not-found message. -/
def executePhase (tool_name : Option JValue)
    (registry : String → Option ToolBehavior) : Except PyErr String :=
  match tool_name with
  | some (.jstr nm) =>
      match registry nm with
      | some (.raisesExec msg) => .ok ("Tool execution error: " ++ msg)
      | some (.returns out err) => .ok (out ++ err)
      | none => .ok ("Error: tool " ++ squote ++ nm ++ squote ++ " was not found")
  | some (.jarr _) => .error (.typeError "unhashable type")
  | some (.jobj _) => .error (.typeError "unhashable type")
  | some v => .ok ("Error: tool " ++ squote ++ pyStr v ++ squote ++ " was not found")
  | none => .ok ("Error: tool " ++ squote ++ "None" ++ squote ++ " was not found")

/-- Outcome of one turn of the solving loop. -/
inductive TurnResult where
  | flagConfirmed : JValue → TurnResult
  | continueNext : TurnResult
  | terminatedEarly : TurnResult
  | fatal : PyErr → TurnResult
deriving Repr, BEq

/-- One automatic-mode turn of SolveAgent.solve (src/agent/solve_agent.py,
lines 125-201): generation retry loop, tool dispatch, flag check against
the confirmation callback, memory write, termination check.  The analysis
dictionary is the Analyzer oracle result for this turn; manual-mode
approval (lines 144-152) is not modelled. -/
def solveTurn (m : Memory) (stepCount : Int) (gens : List GenResult)
    (registry : String → Option ToolBehavior)
    (analysis : List (String × JValue))
    (confirm : Option (JValue → Bool)) (oc : CompressOutcome) :
    TurnResult × Memory :=
  match genLoop gens with
  | .fatal e => (.fatal e, m)
  | .proceed nextOpt _ =>
      let tool_name : Option JValue := nextOpt.map (fun s => s.tool_name)
      let args : List (String × JValue) :=
        match nextOpt with
        | some s => s.arguments
        | none => []
      let content := dictGetD args "content" (.jstr "")
      match executePhase tool_name registry with
      | .error e => (.fatal e, m)
      | .ok output =>
          let flagFound := pyTruthy (dictGetD analysis "flag_found" (.jbool false))
          let confirmed : Option JValue :=
            if flagFound then
              let cand := dictGetD analysis "flag" (.jstr "")
              match confirm with
              | some f => if f cand then some cand else none
              | none => none
            else none
          match confirmed with
          | some cand => (.flagConfirmed cand, m)
          | none =>
              let record : StepRecord :=
                { step := stepCount,
                  purpose := dictGetD args "purpose" (.jstr "unspecified"),
                  content := content, output := output, analysis := analysis }
              match addStep m record oc with
              | (m2, some e) => (.fatal e, m2)
              | (m2, none) =>
                  if pyTruthy (dictGetD analysis "terminate" (.jbool false)) then
                    (.terminatedEarly, m2)
                  else (.continueNext, m2)

/-- Memory states reachable from a fresh instance by add_step calls that
return normally.  A raising add_step propagates out of solve and ends the
session, so session states are exactly these. -/
inductive Reachable (t ms : Nat) : Memory → Prop where
  | init : Reachable t ms (Memory.init ms t)
  | step {m : Memory} {s : StepRecord} {oc : CompressOutcome} {m2 : Memory} :
      Reachable t ms m → addStep m s oc = (m2, none) → Reachable t ms m2

/-- A benign analysis dict used by concrete runs. -/
def sampleAnalysisOK : List (String × JValue) :=
  [("analysis", .jstr "fine"), ("success", .jbool true)]

/-- A concrete step record with a distinct command per index. -/
def sampleStep (i : Nat) : StepRecord :=
  { step := (i : Int), purpose := .jstr "probe", content := .jstr ("cmd" ++ toString i),
    output := "out", analysis := sampleAnalysisOK }

/-- Concrete chain of add_step calls on a threshold-3 instance. -/
def cm0 : Memory := Memory.init 10 3

def cm1 : Memory := (addStep cm0 (sampleStep 1) (.callRaised "e")).1

def cm2 : Memory := (addStep cm1 (sampleStep 2) (.callRaised "e")).1

def cm3 : Memory := (addStep cm2 (sampleStep 3) (.callRaised "e")).1

def cm4 : Memory := (addStep cm3 (sampleStep 4) (.callRaised "e")).1

def cm5 : Memory := (addStep cm4 (sampleStep 5) (.callRaised "e")).1

/-- The state compress_memory is invoked on inside the fifth add_step of
the threshold-3 chain: the appended history with facts extracted and
failures tracked. -/
def c7mid : Memory :=
  (trackFailure
    (extractKeyFacts { cm4 with history := cm4.history ++ [sampleStep 5] } (sampleStep 5))
    (sampleStep 5)).1

/-- A memory holding one step, used to exercise compress_memory directly. -/
def c2mem : Memory :=
  { max_steps := 10, compression_threshold := 5, history := [sampleStep 1],
    compressed_memory := [], key_facts := [], failed_attempts := [] }

/-- Same single-step state, base of the get_summary counterexample. -/
def c8base : Memory :=
  { max_steps := 10, compression_threshold := 5, history := [sampleStep 1],
    compressed_memory := [], key_facts := [], failed_attempts := [] }

/-- A summarisation reply that is a well-formed JSON object whose
next_steps list is empty: compress_memory stores it as a normal block. -/
def c8blockJson : JValue :=
  .jobj [("key_findings", .jarr []), ("failed_attempts", .jarr []),
         ("current_status", .jstr "probing"), ("next_steps", .jarr [])]

/-- The memory after storing that block. -/
def c8mem : Memory := compressMemory c8base (.replyParsed "raw" c8blockJson)

/-- Typed view of a normal compressed block as described by the spec:
string status, string-list findings, failures and next steps, an integer
source-step count, and a non-empty next-steps list. -/
structure BlockView where
  status : String
  findings : List String
  failed : List String
  nextSteps : List String
  sourceSteps : Int

/-- The stored block b carries exactly the fields of view v. -/
def viewOf (b : List (String × JValue)) (v : BlockView) : Prop :=
  dictGet b "current_status" = some (.jstr v.status) ∧
  dictGet b "key_findings" = some (.jarr (v.findings.map JValue.jstr)) ∧
  dictGet b "failed_attempts" = some (.jarr (v.failed.map JValue.jstr)) ∧
  dictGet b "next_steps" = some (.jarr (v.nextSteps.map JValue.jstr)) ∧
  v.nextSteps ≠ [] ∧
  dictGet b "source_steps" = some (.jnum v.sourceSteps)

/-- Spec wording of the key-facts section: up to the 10 most recent key
facts. -/
def specRenderFacts (facts : List (String × String)) : String :=
  if facts.isEmpty then ""
  else
    "Key facts:\n" ++
    String.join ((takeLastN facts 10).map (fun p => "- " ++ p.2 ++ "\n")) ++ "\n"

/-- Spec wording of one compressed block: status, up to 3 key findings
plus an overflow count, up to 3 failed attempts plus an overflow count,
the first suggested next step, and the source-step count. -/
def specRenderBlock (num : Nat) (v : BlockView) : String :=
  "Block #" ++ toString num ++ ":\n" ++
  ("- Status: " ++ v.status ++ "\n" ++
   "- Key findings: " ++ String.intercalate ", " (v.findings.take 3) ++
   (if v.findings.length > 3 then " and " ++ toString (v.findings.length - 3) ++ " more"
    else "") ++ "\n") ++
  ("- Failed attempts: " ++ String.intercalate ", " (v.failed.take 3) ++
   (if v.failed.length > 3 then " and " ++ toString (v.failed.length - 3) ++ " more"
    else "") ++ "\n") ++
  ("- Suggested next step: " ++ v.nextSteps.headD "" ++ "\n") ++
  ("- Source: based on " ++ toString v.sourceSteps ++ " historical steps\n\n")

def specRenderBlocks (total : Nat) : Nat → List BlockView → String
  | _, [] => ""
  | i, v :: rest => specRenderBlock (total - i) v ++ specRenderBlocks total (i + 1) rest

/-- Spec wording of the block section: the 3 most recent blocks. -/
def specBlocksSection (total : Nat) (views : List BlockView) : String :=
  if total = 0 then ""
  else "Compressed memory blocks:\n" ++ specRenderBlocks total 0 (takeLastN views 3)

/-- Spec wording of one active-history record: purpose, content, output
capped at 512 characters, analysis text, and the historical failure count
when the content matches a counter key. -/
def specRenderStep (counters : List (JValue × Nat)) (num : Nat) (s : StepRecord) : String :=
  "Step " ++ toString num ++ ":\n" ++
  "- Purpose: " ++ pyStr s.purpose ++ "\n" ++
  "- Command: " ++ pyStr s.content ++ "\n" ++
  ("- Output: " ++ s.output.take 512 ++
   (if s.output.length > 512 then "..." else "") ++ "\n") ++
  ("- Analysis: " ++ pyStr (dictGetD s.analysis "analysis" (.jstr "No analysis")) ++ "\n") ++
  (match counters.find? (fun p => p.1 == s.content) with
   | some p => "- Historical failure count: " ++ toString p.2 ++ "\n"
   | none => "") ++ "\n"

def specRenderSteps (counters : List (JValue × Nat)) (total : Nat) :
    Nat → List StepRecord → String
  | _, [] => ""
  | i, s :: rest => specRenderStep counters (total - i) s ++ specRenderSteps counters total (i + 1) rest

/-- Spec wording of the step section: every active-history record. -/
def specStepsSection (m : Memory) : String :=
  if m.history.isEmpty then ""
  else "Recent detailed steps:\n" ++ specRenderSteps m.failed_attempts m.history.length 0 m.history

/-- The summary as the spec describes it: facts, then blocks, then records,
with the sentinel when nothing has been recorded. -/
def specSummary (m : Memory) (views : List BlockView) : String :=
  let t := specRenderFacts m.key_facts ++
    specBlocksSection m.compressed_memory.length views ++ specStepsSection m
  if t = "" then "No history" else t

/-- A well-formed stored block used by witnesses. -/
def goodBlock : List (String × JValue) :=
  [("key_findings", .jarr [.jstr "f1"]), ("failed_attempts", .jarr []),
   ("current_status", .jstr "good"), ("next_steps", .jarr [.jstr "n1"]),
   ("source_steps", .jnum 5)]

def goodView : BlockView :=
  { status := "good", findings := ["f1"], failed := [], nextSteps := ["n1"], sourceSteps := 5 }

/-- JSON parse oracle used by the repair witness. -/
def sampleParse (t : String) : Option JValue :=
  if t = "42" then some (.jnum 42) else none

/-- The combined stdout and stderr of the EXECUTING phase when the tool
name is a string (src/agent/solve_agent.py, lines 154-166), factored out
of executePhase so turn-level statements can name the output. -/
def execOut (nm : String) (registry : String → Option ToolBehavior) : String :=
  match registry nm with
  | some (.raisesExec msg) => "Tool execution error: " ++ msg
  | some (.returns out err) => out ++ err
  | none => "Error: tool " ++ squote ++ nm ++ squote ++ " was not found"

/-- A concrete registry: tool X raises, tool sandbox succeeds. -/
def sampleRegistry : String → Option ToolBehavior := fun nm =>
  if nm = "X" then some (.raisesExec "boom")
  else if nm = "sandbox" then some (.returns "so" "se") else none

/-- An analysis reporting a found flag. -/
def flagAnalysis : List (String × JValue) :=
  [("analysis", .jstr "found"), ("flag_found", .jbool true), ("flag", .jstr "flagABC")]

/-- An analysis with no flag, no termination advice, no success field. -/
def plainAnalysis : List (String × JValue) := [("analysis", .jstr "a")]

/-- A summarisation reply that parses to a well-formed normal block. -/
def goodJson : JValue :=
  .jobj [("key_findings", .jarr [.jstr "f1"]), ("failed_attempts", .jarr []),
         ("current_status", .jstr "good"), ("next_steps", .jarr [.jstr "n1"])]

/-- Concrete chain of add_step calls on a threshold-5 instance
(SolveAgent's configured default). -/
def dm0 : Memory := Memory.init 10 5

def dm1 : Memory := (addStep dm0 (sampleStep 1) (.replyParsed "raw" goodJson)).1

def dm2 : Memory := (addStep dm1 (sampleStep 2) (.replyParsed "raw" goodJson)).1

def dm3 : Memory := (addStep dm2 (sampleStep 3) (.replyParsed "raw" goodJson)).1

def dm4 : Memory := (addStep dm3 (sampleStep 4) (.replyParsed "raw" goodJson)).1

def dm5 : Memory := (addStep dm4 (sampleStep 5) (.replyParsed "raw" goodJson)).1

/-- The state compress_memory is invoked on inside the fifth add_step of
the threshold-5 chain. -/
def dmMid : Memory :=
  (trackFailure
    (extractKeyFacts { dm4 with history := dm4.history ++ [sampleStep 5] } (sampleStep 5))
    (sampleStep 5)).1

/-- A memory with one well-formed stored block, one fact and one step,
used by the get_summary witness. -/
def c8wit : Memory :=
  { max_steps := 10, compression_threshold := 5, history := [sampleStep 1],
    compressed_memory := [goodBlock],
    key_facts := [("command", "Command: c, Result: r")], failed_attempts := [] }

theorem takeLastN_length (xs : List α) (n : Nat) :
    (takeLastN xs n).length = xs.length - (xs.length - n) := by
  simp [takeLastN]

theorem getLast?_drop_of_lt (xs : List α) :
    ∀ k, k < xs.length → (xs.drop k).getLast? = xs.getLast? := by
  induction xs with
  | nil => intro k hk; simp at hk
  | cons a as ih =>
      intro k hk
      match k with
      | 0 => rfl
      | j + 1 =>
          have hj : j < as.length := by simpa using hk
          have has : as ≠ [] := by
            intro h0
            rw [h0] at hj
            simp at hj
          match as, hj with
          | b :: bs, hj =>
              have := ih (j + 1 - 1) (by simpa using hj)
              simpa [List.getLast?_cons_cons] using this

theorem getLast?_takeLastN (xs : List α) (n : Nat) (hn : 1 ≤ n) (hx : xs ≠ []) :
    (takeLastN xs n).getLast? = xs.getLast? := by
  have hlen : 0 < xs.length := List.length_pos.mpr hx
  exact getLast?_drop_of_lt xs (xs.length - n) (by omega)

theorem dictGet_dictSet_self (d : List (String × JValue)) (k : String) (v : JValue) :
    dictGet (dictSet d k v) k = some v := by
  unfold dictSet
  by_cases h : d.any (fun p => p.1 == k)
  · rw [if_pos h]
    induction d with
    | nil => simp at h
    | cons p rest ih =>
        by_cases hp : p.1 == k
        · simp [dictGet, List.find?, hp]
        · have hrest : rest.any (fun p => p.1 == k) := by
            simp only [List.any_cons, Bool.or_eq_true] at h
            exact h.resolve_left (by simpa using hp)
          simpa [dictGet, List.find?, hp] using ih hrest
  · rw [if_neg h]
    induction d with
    | nil => simp [dictGet, List.find?]
    | cons p rest ih =>
        have hp : ¬ (p.1 == k) = true := by
          intro hc
          exact h (by simp [List.any_cons, hc])
        have hrest : ¬ rest.any (fun p => p.1 == k) = true := by
          intro hc
          exact h (by simp [List.any_cons, hc])
        simpa [dictGet, List.find?, hp] using ih hrest

theorem allStrings_map_jstr (l : List String) :
    allStrings (l.map JValue.jstr) = .ok l := by
  induction l with
  | nil => rfl
  | cons a as ih =>
      simp only [List.map_cons, allStrings]
      rw [ih]
      rfl

theorem extractKeyFacts_fields (m : Memory) (s : StepRecord) :
    (extractKeyFacts m s).history = m.history ∧
    (extractKeyFacts m s).compression_threshold = m.compression_threshold ∧
    (extractKeyFacts m s).compressed_memory = m.compressed_memory ∧
    (extractKeyFacts m s).failed_attempts = m.failed_attempts := by
  unfold extractKeyFacts
  dsimp only
  split <;> (try split) <;> exact ⟨rfl, rfl, rfl, rfl⟩

theorem trackFailure_fields (m : Memory) (s : StepRecord) :
    (trackFailure m s).1.history = m.history ∧
    (trackFailure m s).1.compression_threshold = m.compression_threshold ∧
    (trackFailure m s).1.compressed_memory = m.compressed_memory ∧
    (trackFailure m s).1.key_facts = m.key_facts := by
  unfold trackFailure
  split <;> (try split) <;> (try split) <;> exact ⟨rfl, rfl, rfl, rfl⟩

theorem trackFailure_ok_of_hashable (m : Memory) (s : StepRecord)
    (hs : pyHashable s.content = true) : (trackFailure m s).2 = none := by
  unfold trackFailure
  cases h : dictGet s.analysis "success" with
  | none => simp
  | some v =>
      by_cases hv : pyTruthy v = true
      · simp [hv]
      · simp [hv, hs]

theorem compressMemory_threshold (m : Memory) (oc : CompressOutcome) :
    (compressMemory m oc).compression_threshold = m.compression_threshold := by
  unfold compressMemory
  split <;> rfl

theorem compressMemory_histLen (m : Memory) (oc : CompressOutcome) :
    (compressMemory m oc).history.length ≤ 4 := by
  unfold compressMemory
  split
  · rename_i h
    have : m.history = [] := by simpa using h
    simp [this]
  · show (takeLastN m.history (min 4 m.history.length)).length ≤ 4
    rw [takeLastN_length]
    omega

theorem compressMemory_getLast (m : Memory) (oc : CompressOutcome)
    (h : m.history ≠ []) :
    (compressMemory m oc).history.getLast? = m.history.getLast? := by
  unfold compressMemory
  have hie : m.history.isEmpty = false := by simpa using h
  rw [hie]
  show (takeLastN m.history (min 4 m.history.length)).getLast? = m.history.getLast?
  have hlen : 0 < m.history.length := List.length_pos.mpr h
  exact getLast?_takeLastN m.history (min 4 m.history.length) (by omega) h

theorem addStep_threshold (m : Memory) (s : StepRecord) (oc : CompressOutcome) :
    (addStep m s oc).1.compression_threshold = m.compression_threshold := by
  unfold addStep
  rcases htf : trackFailure (extractKeyFacts { m with history := m.history ++ [s] } s) s
    with ⟨m3, opt⟩
  have h3 : m3.compression_threshold = m.compression_threshold := by
    have h1 := congrArg (fun p => p.1.compression_threshold) htf
    simp only at h1
    rw [← h1]
    exact ((trackFailure_fields _ s).2.1).trans ((extractKeyFacts_fields _ s).2.1)
  cases opt with
  | some e => exact h3
  | none =>
      dsimp only
      split
      · exact (compressMemory_threshold m3 oc).trans h3
      · exact h3

theorem addStep_ok_cases (m : Memory) (s : StepRecord) (oc : CompressOutcome)
    (m2 : Memory) (h : addStep m s oc = (m2, none)) :
    m2.compression_threshold = m.compression_threshold ∧
    ((m2.history = m.history ++ [s] ∧ m.history.length + 1 < m.compression_threshold)
     ∨ (m2.history.length ≤ 4 ∧ m.compression_threshold ≤ m.history.length + 1)) := by
  have hthr : m2.compression_threshold = m.compression_threshold := by
    have := addStep_threshold m s oc
    rw [h] at this
    exact this
  refine ⟨hthr, ?_⟩
  unfold addStep at h
  rcases htf : trackFailure (extractKeyFacts { m with history := m.history ++ [s] } s) s
    with ⟨m3, opt⟩
  have h3h : m3.history = m.history ++ [s] := by
    have h1 := congrArg (fun p => p.1.history) htf
    simp only at h1
    rw [← h1]
    exact ((trackFailure_fields _ s).1).trans ((extractKeyFacts_fields _ s).1)
  have h3t : m3.compression_threshold = m.compression_threshold := by
    have h1 := congrArg (fun p => p.1.compression_threshold) htf
    simp only at h1
    rw [← h1]
    exact ((trackFailure_fields _ s).2.1).trans ((extractKeyFacts_fields _ s).2.1)
  rw [htf] at h
  cases opt with
  | some e =>
      dsimp only at h
      exact absurd (congrArg Prod.snd h) (by simp)
  | none =>
      dsimp only at h
      by_cases hge : m3.history.length ≥ m3.compression_threshold
      · rw [if_pos hge] at h
        right
        have hm2 : m2 = compressMemory m3 oc := (congrArg Prod.fst h).symm
        constructor
        · rw [hm2]; exact compressMemory_histLen m3 oc
        · rw [h3h, h3t] at hge
          simpa using hge
      · rw [if_neg hge] at h
        left
        have hm2 : m2 = m3 := (congrArg Prod.fst h).symm
        constructor
        · rw [hm2]; exact h3h
        · rw [h3h, h3t] at hge
          simp at hge
          omega

theorem reachable_inv (t ms : Nat) (m : Memory) (hr : Reachable t ms m) :
    m.compression_threshold = t ∧ m.history.length ≤ max (t - 1) 4 := by
  induction hr with
  | init => exact ⟨rfl, by simp [Memory.init]⟩
  | step hprev hstep ih =>
      obtain ⟨hthr, hlen⟩ := ih
      obtain ⟨hthr2, hcases⟩ := addStep_ok_cases _ _ _ _ hstep
      refine ⟨hthr2.trans hthr, ?_⟩
      rcases hcases with ⟨heq, hlt⟩ | ⟨hle, _⟩
      · rw [heq]
        rw [hthr] at hlt
        simp only [List.length_append, List.length_cons, List.length_nil]
        refine le_trans ?_ (Nat.le_max_left (t - 1) 4)
        omega
      · exact le_trans hle (Nat.le_max_right _ _)

/-- C1: the claim says a void generation result is retried indefinitely
with fixed backoff and never reaches EXECUTING or a fatal abort.  On the
code, the void case of parse_tool_response (parsed JSON without a truthy
tool_calls entry) raises UnboundLocalError, and when the empty dict is
returned instead, the retry loop performs a single sleep and then exits
with it (the empty dict is not None), so the turn proceeds to EXECUTING
with an empty action whose tool lookup fails. -/
theorem C1_void_result_mishandled :
    parse_tool_response (.text (some (.jobj [("message", .jstr "hi")])) .null) =
      .error (.unboundLocal "func_name")
  ∧ genLoop [.void, .okStep { tool_name := .jstr "python_tool", arguments := [] }] =
      .proceed none 1
  ∧ (solveTurn (Memory.init 10 5) 1 [.void] (fun _ => none)
        [("analysis", .jstr "a")] none (.callRaised "x")).1 = .continueNext
  ∧ ((solveTurn (Memory.init 10 5) 1 [.void] (fun _ => none)
        [("analysis", .jstr "a")] none (.callRaised "x")).2).history.map
          (fun s => s.output) =
      ["Error: tool " ++ squote ++ "None" ++ squote ++ " was not found"] :=
  ⟨rfl, rfl, rfl, rfl⟩

/-- C2: the claim says compress_memory on a non-empty history appends
exactly one CompressedBlock.  When the summarisation reply is a valid JSON
object without a key_findings entry, the parsed block is appended and then
the success print raises KeyError, whose handler appends a second,
fallback block: two blocks from one call (the truncation part holds). -/
theorem C2_double_block_append :
    (compressMemory c2mem (.replyParsed "\x7b\x7d" (.jobj []))).compressed_memory =
      [[("source_steps", .jnum 1)],
       [("fallback_summary", .jstr "\x7b\x7d"), ("source_steps", .jnum 1)]]
  ∧ (compressMemory c2mem (.replyParsed "\x7b\x7d" (.jobj []))).history = [sampleStep 1] :=
  ⟨rfl, rfl⟩

/-- C3: the claim says malformed structured-call arguments are repaired,
the corrected text substituted and parsed again.  On the code, the repaired
JSON text (a str) is assigned to args without re-parsing, and the
subsequent args.setdefault call raises AttributeError.  The free-text
branch does fill the purpose and content defaults as claimed. -/
theorem C3_repaired_text_not_reparsed :
    parse_tool_response (.toolCall "python_tool" none "\x7b \x7d") =
      .error (.attributeError ("object has no attribute " ++ squote ++ "setdefault" ++ squote))
  ∧ parse_tool_response (.text (some (.jobj [("tool_calls",
        .jarr [.jobj [("name", .jstr "t"),
                      ("arguments", .jobj [("content", .jstr "c")])]])])) .null) =
      .ok (some { tool_name := .jstr "t",
                  arguments := [("content", .jstr "c"), ("purpose", .jstr "Execute action")] }) :=
  ⟨rfl, rfl⟩

/-- C4 counterexample: the claim quantifies over all add_step sequences on
a Memory instance, but with compaction threshold 3 the retained 4-record
tail exceeds the threshold after every later call: after the fourth and
fifth calls (both completing normally) the active history has length 4 > 3,
so the length exceeds the threshold for more than one subsequent call. -/
theorem C4_small_threshold_counterexample :
    cm4.compression_threshold = 3 ∧ cm5.compression_threshold = 3
  ∧ (addStep cm3 (sampleStep 4) (.callRaised "e")).2 = none
  ∧ (addStep cm4 (sampleStep 5) (.callRaised "e")).2 = none
  ∧ cm4.compression_threshold < cm4.history.length
  ∧ cm5.compression_threshold < cm5.history.length :=
  ⟨rfl, rfl, rfl, rfl, by decide, by decide⟩

/-- C4 (amended): for every Memory instance whose compaction threshold is
at least 4 (the constructed instances use 5 and the Memory default 7) and
every sequence of normally-returning add_step calls, the active-history
length never exceeds the threshold; any compress_memory call leaves at
most 4 records; and the add_step call whose append reaches the threshold
compacts synchronously, leaving at most 4 records. -/
theorem C4_compaction_bound_amended (t ms : Nat) (m : Memory)
    (ht : 4 ≤ t) (hr : Reachable t ms m) :
    m.history.length ≤ t
  ∧ (∀ m0 oc, (compressMemory m0 oc).history.length ≤ 4)
  ∧ (∀ s oc m2, addStep m s oc = (m2, none) →
        t ≤ m.history.length + 1 → m2.history.length ≤ 4) := by
  obtain ⟨hthr, hlen⟩ := reachable_inv t ms m hr
  refine ⟨?_, fun m0 oc => compressMemory_histLen m0 oc, ?_⟩
  · exact le_trans hlen (Nat.max_le.mpr ⟨by omega, ht⟩)
  · intro s oc m2 hstep htrig
    obtain ⟨_, hcases⟩ := addStep_ok_cases _ _ _ _ hstep
    rcases hcases with ⟨_, hlt⟩ | ⟨hle, _⟩
    · rw [hthr] at hlt
      omega
    · exact hle

theorem C4_compaction_bound_amended_witness :
    (Memory.init 10 5).history.length ≤ 5
  ∧ dm4.history.length ≤ 5
  ∧ dm5.history.length ≤ 4 := by
  have h1 : addStep dm0 (sampleStep 1) (.replyParsed "raw" goodJson) = (dm1, none) := rfl
  have h2 : addStep dm1 (sampleStep 2) (.replyParsed "raw" goodJson) = (dm2, none) := rfl
  have h3 : addStep dm2 (sampleStep 3) (.replyParsed "raw" goodJson) = (dm3, none) := rfl
  have h4 : addStep dm3 (sampleStep 4) (.replyParsed "raw" goodJson) = (dm4, none) := rfl
  have hreach4 : Reachable 5 10 dm4 :=
    Reachable.step (Reachable.step (Reachable.step (Reachable.step Reachable.init h1) h2) h3) h4
  refine ⟨(C4_compaction_bound_amended 5 10 (Memory.init 10 5) (by decide) Reachable.init).1,
          (C4_compaction_bound_amended 5 10 dm4 (by decide) hreach4).1, ?_⟩
  exact (C4_compaction_bound_amended 5 10 dm4 (by decide) hreach4).2.2
    (sampleStep 5) (.replyParsed "raw" goodJson) dm5 rfl (by decide)

theorem executePhase_jstr (nm : String) (registry : String → Option ToolBehavior) :
    executePhase (some (.jstr nm)) registry = .ok (execOut nm registry) := by
  cases h : registry nm with
  | none => simp [executePhase, execOut, h]
  | some b => cases b <;> simp [executePhase, execOut, h]

theorem addStep_ok_getLast (m : Memory) (s : StepRecord) (oc : CompressOutcome)
    (hs : pyHashable s.content = true) :
    (addStep m s oc).2 = none ∧ (addStep m s oc).1.history.getLast? = some s := by
  unfold addStep
  rcases htf : trackFailure (extractKeyFacts { m with history := m.history ++ [s] } s) s
    with ⟨m3, opt⟩
  have hopt : opt = none := by
    have h0 := trackFailure_ok_of_hashable
      (extractKeyFacts { m with history := m.history ++ [s] } s) s hs
    rw [htf] at h0
    exact h0
  subst hopt
  have h3h : m3.history = m.history ++ [s] := by
    have h1 := congrArg (fun p => p.1.history) htf
    simp only at h1
    rw [← h1]
    exact ((trackFailure_fields _ s).1).trans ((extractKeyFacts_fields _ s).1)
  have hne : m3.history ≠ [] := by
    rw [h3h]
    simp
  have hlast : m3.history.getLast? = some s := by
    rw [h3h]
    simp
  dsimp only
  split
  · exact ⟨rfl, (compressMemory_getLast m3 oc hne).trans hlast⟩
  · exact ⟨rfl, hlast⟩

theorem solveTurn_noflag_continue (m : Memory) (k : Int) (next : NextStep)
    (nm : String) (registry : String → Option ToolBehavior)
    (analysis : List (String × JValue)) (confirm : Option (JValue → Bool))
    (oc : CompressOutcome)
    (hname : next.tool_name = .jstr nm)
    (hflag : pyTruthy (dictGetD analysis "flag_found" (.jbool false)) = false)
    (hterm : pyTruthy (dictGetD analysis "terminate" (.jbool false)) = false)
    (hhash : pyHashable (dictGetD next.arguments "content" (.jstr "")) = true) :
    (solveTurn m k [.okStep next] registry analysis confirm oc).1 = .continueNext
    ∧ (solveTurn m k [.okStep next] registry analysis confirm oc).2.history.getLast? =
        some { step := k,
               purpose := dictGetD next.arguments "purpose" (.jstr "unspecified"),
               content := dictGetD next.arguments "content" (.jstr ""),
               output := execOut nm registry, analysis := analysis } := by
  unfold solveTurn
  simp only [genLoop, Option.map, hname, executePhase_jstr, hflag, Bool.false_eq_true,
    if_false]
  set record : StepRecord :=
    { step := k,
      purpose := dictGetD next.arguments "purpose" (.jstr "unspecified"),
      content := dictGetD next.arguments "content" (.jstr ""),
      output := execOut nm registry,
      analysis := analysis } with hrec
  have hadd := addStep_ok_getLast m record oc (by rw [hrec]; exact hhash)
  rcases ha : addStep m record oc with ⟨m2, opt2⟩
  rw [ha] at hadd
  obtain ⟨hopt2, hlast⟩ := hadd
  simp only at hopt2
  subst hopt2
  simp only [hterm, Bool.false_eq_true, if_false]
  exact ⟨by trivial, hlast⟩

/-- C5: in a turn whose analysis reports a found flag, a confirming
callback ends the loop with that flag and no step record is appended (the
memory is returned untouched); a rejecting callback continues the loop
with no terminal state and the step record for the turn is still appended
to memory. -/
theorem C5_flag_confirmation (m : Memory) (k : Int) (next : NextStep) (nm : String)
    (registry : String → Option ToolBehavior) (analysis : List (String × JValue))
    (f : JValue → Bool) (oc : CompressOutcome)
    (hname : next.tool_name = .jstr nm)
    (hflag : pyTruthy (dictGetD analysis "flag_found" (.jbool false)) = true) :
    (f (dictGetD analysis "flag" (.jstr "")) = true →
      solveTurn m k [.okStep next] registry analysis (some f) oc =
        (.flagConfirmed (dictGetD analysis "flag" (.jstr "")), m))
  ∧ (f (dictGetD analysis "flag" (.jstr "")) = false →
      pyTruthy (dictGetD analysis "terminate" (.jbool false)) = false →
      pyHashable (dictGetD next.arguments "content" (.jstr "")) = true →
      (solveTurn m k [.okStep next] registry analysis (some f) oc).1 = .continueNext
      ∧ ((solveTurn m k [.okStep next] registry analysis (some f) oc).2).history.getLast? =
          some { step := k,
                 purpose := dictGetD next.arguments "purpose" (.jstr "unspecified"),
                 content := dictGetD next.arguments "content" (.jstr ""),
                 output := execOut nm registry,
                 analysis := analysis }) := by
  constructor
  · intro hf
    unfold solveTurn
    simp only [genLoop, Option.map, hname, executePhase_jstr, hflag, if_true, hf]
  · intro hf hterm hhash
    unfold solveTurn
    simp only [genLoop, Option.map, hname, executePhase_jstr, hflag, if_true, hf]
    set record : StepRecord :=
      { step := k,
        purpose := dictGetD next.arguments "purpose" (.jstr "unspecified"),
        content := dictGetD next.arguments "content" (.jstr ""),
        output := execOut nm registry,
        analysis := analysis } with hrec
    have hadd := addStep_ok_getLast m record oc (by rw [hrec]; exact hhash)
    rcases ha : addStep m record oc with ⟨m2, opt2⟩
    rw [ha] at hadd
    obtain ⟨hopt2, hlast⟩ := hadd
    simp only at hopt2
    subst hopt2
    simp only [hterm]
    exact ⟨rfl, hlast⟩

/-- C6: in the EXECUTING phase an unknown tool name or a raised execution
error is captured in the output string under its fixed message, the turn
still proceeds to analysis and the record is stored with that output, and
a successful execution yields stdout concatenated with stderr. -/
theorem C6_execution_errors_are_data (nm msg out err : String)
    (registry : String → Option ToolBehavior) (m : Memory) (k : Int)
    (oc : CompressOutcome) :
    (registry nm = none →
      executePhase (some (.jstr nm)) registry =
        .ok ("Error: tool " ++ squote ++ nm ++ squote ++ " was not found"))
  ∧ (registry nm = some (.returns out err) →
      executePhase (some (.jstr nm)) registry = .ok (out ++ err))
  ∧ (registry nm = some (.raisesExec msg) →
      (solveTurn m k [.okStep { tool_name := .jstr nm, arguments := [] }]
          registry plainAnalysis none oc).1 = .continueNext
      ∧ ((solveTurn m k [.okStep { tool_name := .jstr nm, arguments := [] }]
          registry plainAnalysis none oc).2).history.getLast? =
          some { step := k, purpose := .jstr "unspecified", content := .jstr "",
                 output := "Tool execution error: " ++ msg,
                 analysis := plainAnalysis }) := by
  refine ⟨?_, ?_, ?_⟩
  · intro h
    rw [executePhase_jstr]
    unfold execOut
    rw [h]
  · intro h
    rw [executePhase_jstr]
    unfold execOut
    rw [h]
  · intro h
    have hout : execOut nm registry = "Tool execution error: " ++ msg := by
      unfold execOut
      rw [h]
    have hmain := solveTurn_noflag_continue m k
      { tool_name := .jstr nm, arguments := [] } nm registry plainAnalysis none oc
      rfl rfl rfl rfl
    rw [hout] at hmain
    exact hmain

theorem C5_flag_confirmation_witness :
    solveTurn (Memory.init 10 5) 1
        [.okStep { tool_name := .jstr "X", arguments := [] }] sampleRegistry flagAnalysis
        (some (fun _ => true)) (.callRaised "x") =
      (.flagConfirmed (.jstr "flagABC"), Memory.init 10 5)
  ∧ (solveTurn (Memory.init 10 5) 1
        [.okStep { tool_name := .jstr "X", arguments := [] }] sampleRegistry flagAnalysis
        (some (fun _ => false)) (.callRaised "x")).1 = .continueNext :=
  ⟨(C5_flag_confirmation (Memory.init 10 5) 1
      { tool_name := .jstr "X", arguments := [] } "X" sampleRegistry flagAnalysis
      (fun _ => true) (.callRaised "x") rfl rfl).1 rfl,
   ((C5_flag_confirmation (Memory.init 10 5) 1
      { tool_name := .jstr "X", arguments := [] } "X" sampleRegistry flagAnalysis
      (fun _ => false) (.callRaised "x") rfl rfl).2 rfl rfl rfl).1⟩

theorem C6_execution_errors_are_data_witness :
    executePhase (some (.jstr "nosuch")) sampleRegistry =
      .ok ("Error: tool " ++ squote ++ "nosuch" ++ squote ++ " was not found")
  ∧ executePhase (some (.jstr "sandbox")) sampleRegistry = .ok ("so" ++ "se")
  ∧ (solveTurn (Memory.init 10 5) 1
        [.okStep { tool_name := .jstr "X", arguments := [] }] sampleRegistry plainAnalysis
        none (.callRaised "x")).1 = .continueNext :=
  ⟨(C6_execution_errors_are_data "nosuch" "" "" "" sampleRegistry (Memory.init 10 5) 1
      (.callRaised "x")).1 rfl,
   (C6_execution_errors_are_data "sandbox" "" "so" "se" sampleRegistry (Memory.init 10 5) 1
      (.callRaised "x")).2.1 rfl,
   ((C6_execution_errors_are_data "X" "boom" "" "" sampleRegistry (Memory.init 10 5) 1
      (.callRaised "x")).2.2 rfl).1⟩

theorem compressBlocks_source (m : Memory) (oc : CompressOutcome) (n : Nat) :
    ∀ b ∈ (compressBlocks m oc n).1, dictGet b "source_steps" = some (.jnum n) := by
  intro b hb
  cases oc with
  | callRaised msg =>
      simp only [compressBlocks, List.mem_singleton] at hb
      subst hb
      rfl
  | callKeyError =>
      simp only [compressBlocks, List.mem_singleton] at hb
      subst hb
      rfl
  | replyUnparseable raw =>
      simp only [compressBlocks, List.mem_singleton] at hb
      subst hb
      rfl
  | replyParsed raw v =>
      simp only [compressBlocks] at hb
      cases v with
      | jobj fields =>
          simp only [compressTryBody] at hb
          cases hit : pyIterate (dictGetD fields "failed_attempts" (.jarr [])) with
          | error e =>
              rw [hit] at hb
              dsimp only at hb
              simp only [List.mem_singleton] at hb
              subst hb
              rfl
          | ok xs =>
              rw [hit] at hb
              dsimp only at hb
              rcases hbump : bumpAll m.failed_attempts xs with ⟨c, opt⟩
              rw [hbump] at hb
              cases opt with
              | some e =>
                  dsimp only at hb
                  simp only [List.mem_singleton] at hb
                  subst hb
                  rfl
              | none =>
                  dsimp only at hb
                  cases hkf : dictGet (dictSet fields "source_steps" (.jnum n)) "key_findings" with
                  | none =>
                      rw [hkf] at hb
                      simp only [List.mem_cons, List.mem_singleton, List.not_mem_nil,
                        or_false] at hb
                      rcases hb with hb | hb
                      · subst hb
                        exact dictGet_dictSet_self fields "source_steps" (.jnum n)
                      · subst hb
                        rfl
                  | some kf =>
                      rw [hkf] at hb
                      dsimp only at hb
                      cases hl : pyLen kf with
                      | error e =>
                          rw [hl] at hb
                          simp only [List.mem_cons, List.mem_singleton, List.not_mem_nil,
                            or_false] at hb
                          rcases hb with hb | hb
                          · subst hb
                            exact dictGet_dictSet_self fields "source_steps" (.jnum n)
                          · subst hb
                            rfl
                      | ok len =>
                          rw [hl] at hb
                          simp only [List.mem_singleton] at hb
                          subst hb
                          exact dictGet_dictSet_self fields "source_steps" (.jnum n)
      | null =>
          simp only [compressTryBody, List.mem_singleton] at hb
          subst hb
          rfl
      | jbool b2 =>
          simp only [compressTryBody, List.mem_singleton] at hb
          subst hb
          rfl
      | jnum n2 =>
          simp only [compressTryBody, List.mem_singleton] at hb
          subst hb
          rfl
      | jstr s2 =>
          simp only [compressTryBody, List.mem_singleton] at hb
          subst hb
          rfl
      | jarr xs2 =>
          simp only [compressTryBody, List.mem_singleton] at hb
          subst hb
          rfl

theorem compressMemory_new_blocks_source (m : Memory) (oc : CompressOutcome)
    (h : m.history ≠ []) :
    ∀ b ∈ (compressMemory m oc).compressed_memory.drop m.compressed_memory.length,
      dictGet b "source_steps" = some (.jnum m.history.length) := by
  unfold compressMemory
  have hie : m.history.isEmpty = false := by simpa using h
  rw [hie]
  show ∀ b ∈ (m.compressed_memory ++
      (compressBlocks m oc m.history.length).1).drop m.compressed_memory.length, _
  rw [List.drop_left]
  exact compressBlocks_source m oc m.history.length

theorem compressMemory_compressed_append (m : Memory) (oc : CompressOutcome)
    (h : m.history ≠ []) :
    (compressMemory m oc).compressed_memory =
      m.compressed_memory ++ (compressBlocks m oc m.history.length).1 := by
  unfold compressMemory
  have hie : m.history.isEmpty = false := by simpa using h
  rw [hie]
  rfl

/-- C7 counterexample: with compaction threshold 3, the fifth add_step of
the concrete chain invokes compress_memory on a five-record active history,
but the compression prompt slices history[-3:], so only the last three
records are embedded: the prompt does not embed every active record. -/
theorem C7_prompt_omits_records_counterexample :
    (addStep cm4 (sampleStep 5) (.callRaised "e")).1 = compressMemory c7mid (.callRaised "e")
  ∧ c7mid.history.length = 5
  ∧ (promptedSteps c7mid).length = 3
  ∧ promptedSteps c7mid ≠ c7mid.history :=
  ⟨rfl, rfl, rfl, fun h => absurd (congrArg List.length h) (by decide)⟩

/-- C7 (amended): at every compaction triggered by add_step on an instance
whose compaction threshold is at least 5 (the configured values are 5 and
7), the active history at that moment has exactly threshold records, so the
prompt slice history[-threshold:] embeds every active record (with the
latest 5 key facts, as built into the prompt); and every block stored by
that invocation carries source_steps equal to the active-history length. -/
theorem C7_compression_prompt_amended (t ms : Nat) (m : Memory) (s : StepRecord)
    (oc : CompressOutcome) (ht : 5 ≤ t) (hr : Reachable t ms m)
    (hhash : pyHashable s.content = true)
    (htrig : t ≤ m.history.length + 1) :
    promptedSteps
        ((trackFailure (extractKeyFacts { m with history := m.history ++ [s] } s) s).1)
      = ((trackFailure (extractKeyFacts { m with history := m.history ++ [s] } s) s).1).history
  ∧ (addStep m s oc).1 =
      compressMemory
        ((trackFailure (extractKeyFacts { m with history := m.history ++ [s] } s) s).1) oc
  ∧ ∀ b ∈ ((addStep m s oc).1).compressed_memory.drop m.compressed_memory.length,
      dictGet b "source_steps" = some (.jnum (m.history.length + 1)) := by
  obtain ⟨hthr, hlen⟩ := reachable_inv t ms m hr
  set mid : Memory :=
    (trackFailure (extractKeyFacts { m with history := m.history ++ [s] } s) s).1 with hmid
  have hmidh : mid.history = m.history ++ [s] := by
    rw [hmid]
    exact ((trackFailure_fields _ s).1).trans ((extractKeyFacts_fields _ s).1)
  have hmidt : mid.compression_threshold = t := by
    rw [hmid]
    exact (((trackFailure_fields _ s).2.1).trans ((extractKeyFacts_fields _ s).2.1)).trans hthr
  have hmidc : mid.compressed_memory = m.compressed_memory := by
    rw [hmid]
    exact ((trackFailure_fields _ s).2.2.1).trans ((extractKeyFacts_fields _ s).2.2.1)
  have hmax : max (t - 1) 4 = t - 1 := Nat.max_eq_left (by omega)
  have hmlen : m.history.length = t - 1 := by
    rw [hmax] at hlen
    omega
  have hmidlen : mid.history.length = t := by
    rw [hmidh]
    simp only [List.length_append, List.length_cons, List.length_nil]
    omega
  have hne : mid.history ≠ [] := by
    rw [hmidh]
    simp
  have hsteps : promptedSteps mid = mid.history := by
    unfold promptedSteps
    rw [hmidt]
    have ht0 : (t == 0) = false := by
      cases t with
      | zero => omega
      | succ t2 => rfl
    rw [ht0]
    show takeLastN mid.history t = mid.history
    unfold takeLastN
    rw [hmidlen]
    simp
  have haddeq : (addStep m s oc).1 = compressMemory mid oc := by
    unfold addStep
    rcases htf : trackFailure (extractKeyFacts { m with history := m.history ++ [s] } s) s
      with ⟨m3, opt⟩
    have hm3 : m3 = mid := by
      rw [hmid, htf]
    have hopt : opt = none := by
      have h0 := trackFailure_ok_of_hashable
        (extractKeyFacts { m with history := m.history ++ [s] } s) s hhash
      rw [htf] at h0
      exact h0
    subst hopt
    subst hm3
    dsimp only
    rw [if_pos (by rw [hmidlen, hmidt])]
  refine ⟨hsteps, haddeq, ?_⟩
  intro b hb
  rw [haddeq] at hb
  rw [← hmidc] at hb
  have hthis := compressMemory_new_blocks_source mid oc hne b hb
  rw [hmidlen] at hthis
  have hlen2 : ((m.history.length : Int) + 1) = (t : Int) := by
    have : m.history.length + 1 = t := by omega
    exact_mod_cast this
  rw [hlen2]
  exact hthis

theorem C7_compression_prompt_amended_witness :
    promptedSteps dmMid = dmMid.history
  ∧ dm4.compressed_memory = []
  ∧ dm5.compressed_memory.length = 1
  ∧ dictGet (dm5.compressed_memory.headD []) "source_steps" = some (.jnum 5) := by
  have h1 : addStep dm0 (sampleStep 1) (.replyParsed "raw" goodJson) = (dm1, none) := rfl
  have h2 : addStep dm1 (sampleStep 2) (.replyParsed "raw" goodJson) = (dm2, none) := rfl
  have h3 : addStep dm2 (sampleStep 3) (.replyParsed "raw" goodJson) = (dm3, none) := rfl
  have h4 : addStep dm3 (sampleStep 4) (.replyParsed "raw" goodJson) = (dm4, none) := rfl
  have hreach4 : Reachable 5 10 dm4 :=
    Reachable.step (Reachable.step (Reachable.step (Reachable.step Reachable.init h1) h2) h3) h4
  exact ⟨(C7_compression_prompt_amended 5 10 dm4 (sampleStep 5)
      (.replyParsed "raw" goodJson) (by decide) hreach4 rfl (by decide)).1,
    rfl, rfl, rfl⟩

/-- C9: whenever fix_json_with_llm returns a string, that string parses as
valid JSON: the loop only returns a client reply that the parse oracle
accepted. -/
theorem C9_repair_returns_valid_json (parseJson : String → Option JValue)
    (replies : List String) (s : String)
    (h : fix_json_with_llm parseJson replies = some s) : (parseJson s).isSome := by
  induction replies with
  | nil => simp [fix_json_with_llm] at h
  | cons r rest ih =>
      rw [fix_json_with_llm] at h
      by_cases hr : (parseJson r).isSome
      · rw [if_pos hr] at h
        injection h with h2
        exact h2 ▸ hr
      · rw [if_neg hr] at h
        exact ih h

theorem C9_repair_returns_valid_json_witness :
    fix_json_with_llm sampleParse ["x", "42"] = some "42" ∧ (sampleParse "42").isSome :=
  ⟨rfl, C9_repair_returns_valid_json sampleParse ["x", "42"] "42" rfl⟩

theorem zip_drop_eq (as : List α) (bs : List β) (k : Nat) (h : as.length = bs.length) :
    (as.drop k).zip (bs.drop k) = (as.zip bs).drop k := by
  induction as generalizing bs k with
  | nil =>
      cases bs with
      | nil => simp
      | cons b bs2 => simp at h
  | cons a as2 ih =>
      cases bs with
      | nil => simp at h
      | cons b bs2 =>
          cases k with
          | zero => simp
          | succ k2 => simpa using ih bs2 k2 (by simpa using h)

theorem renderBlockFindings_spec (b : List (String × JValue)) (v : BlockView)
    (hst : dictGet b "current_status" = some (.jstr v.status))
    (hkf : dictGet b "key_findings" = some (.jarr (v.findings.map JValue.jstr))) :
    renderBlockFindings b = .ok
      ("- Status: " ++ v.status ++ "\n" ++
       "- Key findings: " ++ String.intercalate ", " (v.findings.take 3) ++
       (if v.findings.length > 3 then " and " ++ toString (v.findings.length - 3) ++ " more"
        else "") ++ "\n") := by
  unfold renderBlockFindings
  rw [hkf]
  simp [pySliceTo, pyJoinComma, pyLen, allStrings_map_jstr, ← List.map_take, bind,
    Except.bind, dictGetD, hst, pyStr]

theorem renderBlockFailed_spec (b : List (String × JValue)) (v : BlockView)
    (hfa : dictGet b "failed_attempts" = some (.jarr (v.failed.map JValue.jstr))) :
    renderBlockFailed b = .ok
      ("- Failed attempts: " ++ String.intercalate ", " (v.failed.take 3) ++
       (if v.failed.length > 3 then " and " ++ toString (v.failed.length - 3) ++ " more"
        else "") ++ "\n") := by
  unfold renderBlockFailed
  rw [hfa]
  simp [pySliceTo, pyJoinComma, pyLen, allStrings_map_jstr, ← List.map_take, bind,
    Except.bind]

theorem renderBlockNext_spec (b : List (String × JValue)) (ns : List String)
    (hns : dictGet b "next_steps" = some (.jarr (ns.map JValue.jstr)))
    (hne : ns ≠ []) :
    renderBlockNext b = .ok ("- Suggested next step: " ++ ns.headD "" ++ "\n") := by
  unfold renderBlockNext
  rw [hns]
  cases ns with
  | nil => exact absurd rfl hne
  | cons h0 tl => simp [pyIndexZero, pyStr, bind, Except.bind]

theorem renderBlockSource_spec (b : List (String × JValue)) (n : Int)
    (hsrc : dictGet b "source_steps" = some (.jnum n)) :
    renderBlockSource b = .ok
      ("- Source: based on " ++ toString n ++ " historical steps\n\n") := by
  unfold renderBlockSource
  rw [hsrc]
  rfl

theorem renderBlock_spec (num : Nat) (b : List (String × JValue)) (v : BlockView)
    (hv : viewOf b v) : renderBlock num b = .ok (specRenderBlock num v) := by
  obtain ⟨hst, hkf, hfa, hns, hne, hsrc⟩ := hv
  unfold renderBlock specRenderBlock
  rw [renderBlockFindings_spec b v hst hkf, renderBlockFailed_spec b v hfa,
      renderBlockNext_spec b v.nextSteps hns hne,
      renderBlockSource_spec b v.sourceSteps hsrc]
  rfl

theorem renderBlocksFrom_spec (total : Nat) (bs : List (List (String × JValue)))
    (vs : List BlockView) (hlen : bs.length = vs.length)
    (h : ∀ p ∈ bs.zip vs, viewOf p.1 p.2) :
    ∀ i, renderBlocksFrom total i bs = .ok (specRenderBlocks total i vs) := by
  induction bs generalizing vs with
  | nil =>
      cases vs with
      | nil => intro i; rfl
      | cons v vs2 => simp at hlen
  | cons b bs2 ih =>
      cases vs with
      | nil => simp at hlen
      | cons v vs2 =>
          intro i
          have hbv : viewOf b v := h (b, v) (by simp [List.zip_cons_cons])
          have ih2 := ih vs2 (by simpa using hlen)
            (fun p hp => h p (by simp only [List.zip_cons_cons, List.mem_cons]; right; exact hp))
          unfold renderBlocksFrom specRenderBlocks
          rw [renderBlock_spec (total - i) b v hbv, ih2 (i + 1)]
          rfl

theorem blocksSection_spec (m : Memory) (views : List BlockView)
    (hlen : m.compressed_memory.length = views.length)
    (hview : ∀ p ∈ m.compressed_memory.zip views, viewOf p.1 p.2) :
    blocksSection m = .ok (specBlocksSection m.compressed_memory.length views) := by
  unfold blocksSection specBlocksSection
  cases hie : m.compressed_memory.isEmpty with
  | true =>
      have h0 : m.compressed_memory = [] := by simpa using hie
      simp [h0]
  | false =>
      have hnz : ¬ m.compressed_memory.length = 0 := by
        intro h0
        rw [List.length_eq_zero] at h0
        rw [h0] at hie
        simp at hie
      have hslice := renderBlocksFrom_spec m.compressed_memory.length
        (takeLastN m.compressed_memory 3) (takeLastN views 3)
        (by rw [takeLastN_length, takeLastN_length, hlen])
        (fun p hp => by
          apply hview
          have hz : (takeLastN m.compressed_memory 3).zip (takeLastN views 3) =
              (m.compressed_memory.zip views).drop (m.compressed_memory.length - 3) := by
            unfold takeLastN
            rw [← hlen]
            exact zip_drop_eq m.compressed_memory views (m.compressed_memory.length - 3) hlen
          rw [hz] at hp
          exact List.mem_of_mem_drop hp)
      rw [if_neg hnz, hslice 0]
      rfl

theorem factsSection_spec (m : Memory) :
    factsSection true m = specRenderFacts m.key_facts := by
  unfold factsSection specRenderFacts
  cases hie : m.key_facts.isEmpty <;> simp [hie]

theorem renderStep_spec (counters : List (JValue × Nat)) (num : Nat) (s : StepRecord)
    (hs : pyHashable s.content = true) :
    renderStep counters num s = .ok (specRenderStep counters num s) := by
  cases hf : counters.find? (fun p => p.1 == s.content) with
  | none =>
      unfold renderStep specRenderStep
      rw [hs, hf]
      rfl
  | some p =>
      unfold renderStep specRenderStep
      rw [hs, hf]
      rfl

theorem renderStepsFrom_spec (counters : List (JValue × Nat)) (total : Nat)
    (steps : List StepRecord) (h : ∀ s ∈ steps, pyHashable s.content = true) :
    ∀ i, renderStepsFrom counters total i steps = .ok (specRenderSteps counters total i steps) := by
  induction steps with
  | nil => intro i; rfl
  | cons s rest ih =>
      intro i
      have h1 := renderStep_spec counters (total - i) s (h s (List.mem_cons_self s rest))
      have ih2 := ih (fun x hx => h x (List.mem_cons_of_mem s hx)) (i + 1)
      show (do
        let one ← renderStep counters (total - i) s
        let r ← renderStepsFrom counters total (i + 1) rest
        Except.ok (one ++ r)) =
        Except.ok (specRenderStep counters (total - i) s ++
          specRenderSteps counters total (i + 1) rest)
      rw [h1, ih2]
      rfl

theorem stepsSection_spec (m : Memory)
    (h : ∀ s ∈ m.history, pyHashable s.content = true) :
    stepsSection m = .ok (specStepsSection m) := by
  unfold stepsSection specStepsSection
  cases hie : m.history.isEmpty with
  | true => rfl
  | false =>
      rw [renderStepsFrom_spec m.failed_attempts m.history.length m.history h 0]
      rfl

/-- C8 counterexample: the claim says get_summary never fails on any block
shape the system can store.  A summarisation reply that is a well-formed
JSON object with an empty next_steps list is stored as a normal block by
compress_memory, and get_summary then raises IndexError indexing
next_steps[0]. -/
theorem C8_empty_next_steps_counterexample :
    c8mem = compressMemory c8base (.replyParsed "raw" c8blockJson)
  ∧ c8mem.compressed_memory.length = 1
  ∧ getSummary c8mem true = .error .indexError :=
  ⟨rfl, rfl, rfl⟩

/-- C8 (amended): for every Memory state whose stored blocks are normal
variants with string status, string-list findings, failures and next steps,
a non-empty next-steps list and an integer source-step count, and whose
records carry hashable contents (as all orchestrator-stored string contents
are), get_summary returns exactly the text the claim describes: up to the
10 most recent key facts, the 3 most recent blocks (status, up to 3 key
findings plus overflow count, up to 3 failed attempts plus overflow count,
first suggested next step, source-step count), then every active record
with output capped at 512 characters; and the sentinel "No history" string
when nothing has been recorded.  The never-fails part of the original
claim is false: a stored block whose next_steps list is empty makes
get_summary raise IndexError. -/
theorem C8_get_summary_amended (ms t : Nat) (m : Memory) (views : List BlockView)
    (hlen : m.compressed_memory.length = views.length)
    (hview : ∀ p ∈ m.compressed_memory.zip views, viewOf p.1 p.2)
    (hsteps : ∀ s ∈ m.history, pyHashable s.content = true) :
    getSummary m true = .ok (specSummary m views)
  ∧ getSummary (Memory.init ms t) true = .ok "No history" := by
  constructor
  · unfold getSummary specSummary
    rw [blocksSection_spec m views hlen hview, stepsSection_spec m hsteps, factsSection_spec]
    rfl
  · rfl

theorem C8_get_summary_amended_witness :
    getSummary c8wit true = .ok (specSummary c8wit [goodView]) ∧
    getSummary (Memory.init 10 5) true = .ok "No history" :=
  C8_get_summary_amended 10 5 c8wit [goodView] rfl
    (by
      intro p hp
      simp only [c8wit, List.zip_cons_cons, List.zip_nil_right, List.mem_singleton] at hp
      subst hp
      exact ⟨rfl, rfl, rfl, rfl, by simp [goodView], rfl⟩)
    (by
      intro s hs
      simp only [c8wit, List.mem_singleton] at hs
      subst hs
      rfl)

/-- C10: compress_memory on an empty active history returns immediately:
no judgment-client call is consulted (the outcome argument is arbitrary),
no block is appended, and the whole state is unchanged. -/
theorem C10_compress_empty_noop (m : Memory) (oc : CompressOutcome)
    (h : m.history = []) : compressMemory m oc = m := by
  simp [compressMemory, h]

theorem C10_compress_empty_noop_witness :
    (Memory.init 10 5).history = [] ∧
    compressMemory (Memory.init 10 5) (.callRaised "boom") = Memory.init 10 5 :=
  ⟨rfl, C10_compress_empty_noop (Memory.init 10 5) (.callRaised "boom") rfl⟩

end BUU
